import Mathlib

/-!
Verification of the gopromise library (src/promise.go), a JavaScript-style
promise implementation for Go.

Embedding conventions:
- A Go `error` interface value is `Option GoError`; `none` is the nil error.
- The mutex makes each `resolve`/`reject` call atomic, so an interleaving of
  concurrent settlement attempts is modelled as a list of `SettleCall` steps
  applied in sequence.
- A goroutine spawned by `New` is modelled by the list of settlement calls
  its executor performs, followed by its `Termination` (normal return or a
  panic with some payload); the deferred recover handler of `New` then runs.
  `recover()` yields nil both after a normal return and after `panic(nil)`
  (Go 1.19 semantics), which is the `recoverResult.rnil` case.
- The `sync.WaitGroup` is abstracted: `Await` reads the fields of a promise
  and is only applied to settled promise states in the theorems below.
-/

/-- The three promise states, from `promiseStatus` in the source. -/
inductive promiseStatus
  | PENDING
  | FULFILLED
  | REJECTED
deriving DecidableEq

/-- Go error values. `user` models distinct error values created by client
code (for example via errors.New, distinguished by `tag`); `errorf` models
errors synthesized by the library via fmt.Errorf; `runtimeNilDeref` is the
runtime error raised when a method dereferences a nil pointer. -/
inductive GoError
  | user (tag : Nat) (msg : String)
  | errorf (msg : String)
  | runtimeNilDeref
deriving DecidableEq

/-- The message returned by the error's Error() method. -/
def GoError.message : GoError → String
  | .user _ m => m
  | .errorf m => m
  | .runtimeNilDeref => "runtime error: invalid memory address or nil pointer dereference"

/-- The `Promise[T]` struct: `value`, `reason` and `status` fields.
The mutex and wait group fields are abstracted into the step semantics. -/
structure Promise (T : Type) where
  value : T
  reason : Option GoError
  status : promiseStatus
deriving DecidableEq

/-- `Promise.resolve`: under the mutex, a no-op unless the status is
`PENDING`, otherwise transition to `FULFILLED` storing the value. -/
def Promise.resolve {T : Type} (p : Promise T) (val : T) : Promise T :=
  if p.status ≠ promiseStatus.PENDING then p
  else { p with status := promiseStatus.FULFILLED, value := val }

/-- `Promise.reject`: under the mutex, a no-op unless the status is
`PENDING`, otherwise transition to `REJECTED` storing the error. -/
def Promise.reject {T : Type} (p : Promise T) (err : Option GoError) : Promise T :=
  if p.status ≠ promiseStatus.PENDING then p
  else { p with status := promiseStatus.REJECTED, reason := err }

/-- `Promise.Await`: after the wait group releases, returns
`(p.value, p.reason)`. -/
def Promise.Await {T : Type} (p : Promise T) : T × Option GoError :=
  (p.value, p.reason)

/-- One atomic settlement attempt: a call to `resolve` or to `reject`. -/
inductive SettleCall (T : Type)
  | res (v : T)
  | rej (e : Option GoError)
deriving DecidableEq

def applyCall {T : Type} (p : Promise T) : SettleCall T → Promise T
  | .res v => p.resolve v
  | .rej e => p.reject e

/-- A sequence of settlement attempts, applied in interleaving order. -/
def applyCalls {T : Type} (p : Promise T) (cs : List (SettleCall T)) : Promise T :=
  cs.foldl applyCall p

/-- The promise allocated by `New`: status `PENDING`, fields at their Go
zero values (the zero value of `T` is the `zero` argument, nil reason). -/
def newPending {T : Type} (zero : T) : Promise T :=
  { value := zero, reason := none, status := promiseStatus.PENDING }

/-- What `recover()` yields inside the deferred handler of `New`:
nil (normal return, or `panic(nil)`), a payload implementing `error`,
or a plain string payload. -/
inductive recoverResult
  | rnil
  | rerr (e : GoError)
  | rstr (s : String)
deriving DecidableEq

/-- The string produced by formatting the recovered payload with the
`%+v` verb, as in `fmt.Errorf` in the deferred handler. -/
def formatPlusV : recoverResult → String
  | .rnil => "<nil>"
  | .rerr e => e.message
  | .rstr s => s

/-- The deferred handler in `New`: if the recovered payload is an error,
reject with it unchanged; otherwise reject with `fmt.Errorf` applied to
the payload. It always calls `reject`, which is a no-op on a settled
promise. -/
def deferredRecover {T : Type} (p : Promise T) (r : recoverResult) : Promise T :=
  match r with
  | .rerr e => p.reject (some e)
  | r => p.reject (some (GoError.errorf (formatPlusV r)))

/-- How the executor's goroutine ends: normal return, or a panic whose
payload `recover()` will report as the given `recoverResult`. -/
inductive Termination
  | normal
  | panics (r : recoverResult)
deriving DecidableEq

def recoverOf : Termination → recoverResult
  | .normal => .rnil
  | .panics r => r

/-- The full life of the goroutine spawned by `New`: the executor performs
its settlement calls, terminates, and then the deferred recover handler
runs. -/
def runTask {T : Type} (p : Promise T) (calls : List (SettleCall T)) (t : Termination) :
    Promise T :=
  deferredRecover (applyCalls p calls) (recoverOf t)

/-- The state of the promise created by `New` once its executor goroutine
has exited, given the settlement calls the executor made and how it
terminated. -/
def NewRun {T : Type} (zero : T) (calls : List (SettleCall T)) (t : Termination) : Promise T :=
  runTask (newPending zero) calls t

/-- The pre-settled constructor `Resolve`. -/
def Resolve {T : Type} (value : T) : Promise T :=
  { value := value, reason := none, status := promiseStatus.FULFILLED }

/-- The pre-settled constructor `Reject`; `zero` is the Go zero value of
`T`, at which the `value` field is left. -/
def Reject {T : Type} (zero : T) (err : Option GoError) : Promise T :=
  { value := zero, reason := err, status := promiseStatus.REJECTED }

/-- The value returned by a `Then`/`Catch` continuation, as seen by the
type assertion `interface{}(resOrProm).(*Promise[R])` in the source: either
a plain `R` value (the assertion fails) or a `*Promise[R]` (it succeeds).
A promise of any other type is, at type `R`, a `plain` value. -/
inductive CbResult (R : Type)
  | plain (v : R)
  | prom (q : Promise R)
deriving DecidableEq

/-- The synchronous part of the executor that `Then` passes to `New`,
run after `src.Await()` returns. Yields the settlement calls the executor
makes before returning, whether the continuation was invoked, and the inner
promise handed to the flattening branch, if any. -/
def thenExecStep {T R : Type} (src : Promise T) (cb : T → CbResult R) :
    List (SettleCall R) × Bool × Option (Promise R) :=
  match src.Await with
  | (_, some e) => ([SettleCall.rej (some e)], false, none)
  | (val, none) =>
    match cb val with
    | .plain v => ([SettleCall.res v], true, none)
    | .prom q => ([], true, some q)

/-- The synchronous part of the executor that `Catch` passes to `New`.
The continuation receives the non-nil error; when `src.Await()` reports a
nil error the executor body does nothing and returns. -/
def catchExecStep {T R : Type} (src : Promise T) (cb : GoError → CbResult R) :
    List (SettleCall R) × Bool × Option (Promise R) :=
  match src.Await with
  | (_, some e) =>
    match cb e with
    | .plain v => ([SettleCall.res v], true, none)
    | .prom q => ([], true, some q)
  | (_, none) => ([], false, none)

/-- The settlement call eventually produced by the adoption wiring
`Then(rp, resolve-and-return)` / `Catch(rp, reject-and-return)` in the
flattening branch, once the inner promise `q` has settled: the dispatch in
those helpers is on `q.Await`'s error component. -/
def adoptionCalls {R : Type} (q : Promise R) : List (SettleCall R) :=
  match q.reason with
  | none => [SettleCall.res q.value]
  | some e => [SettleCall.rej (some e)]

/-- Result of invoking an API function: either it panics in the caller's
goroutine at call time, or it returns a promise. -/
inductive CallResult (R : Type)
  | callPanic (msg : String)
  | returned (p : R)
deriving DecidableEq

/-- `New` including its nil-executor guard. The executor is abstracted by
the settlement calls it makes and its termination; `none` is a nil
executor. -/
def NewChecked {T : Type} (zero : T)
    (exec : Option (List (SettleCall T) × Termination)) : CallResult (Promise T) :=
  match exec with
  | none => .callPanic "executor cannot be nil"
  | some (calls, t) => .returned (runTask (newPending zero) calls t)

/-- `Then` including its nil-source guard, for the paths on which the
executor settles synchronously (rejected source, or continuation returning
a plain value). -/
def ThenChecked {T R : Type} (zero : R) (src : Option (Promise T)) (cb : T → CbResult R) :
    CallResult (Promise R) :=
  match src with
  | none => .callPanic "must provide valid promise"
  | some s => .returned (runTask (newPending zero) (thenExecStep s cb).1 Termination.normal)

/-- `Catch` has no nil-source guard in the source: with a nil source the
spawned executor dereferences the nil pointer in `src.Await()`, the runtime
error is recovered by the deferred handler, and the returned promise is
rejected with it. -/
def CatchChecked {T R : Type} (zero : R) (src : Option (Promise T)) (cb : GoError → CbResult R) :
    CallResult (Promise R) :=
  match src with
  | none =>
      .returned (runTask (newPending zero) [] (Termination.panics (recoverResult.rerr GoError.runtimeNilDeref)))
  | some s => .returned (runTask (newPending zero) (catchExecStep s cb).1 Termination.normal)

/-- The eventual settlement of one constituent promise handed to `All` or
`Race`: fulfilled with a value, rejected with a non-nil reason, or
rejected with a nil reason (reachable through `Reject[T](nil)` or a
`reject(nil)` call in an executor: status `REJECTED`, reason nil). -/
inductive Outcome (T : Type)
  | fulfilled (v : T)
  | rejectedWith (e : GoError)
  | rejectedNil
deriving DecidableEq

/-- A signal received by the collection loop of `All`: a done signal from
a constituent's `Then` continuation (after writing its value slot), or an
error from a constituent's `Catch` continuation. -/
inductive Sig
  | done
  | errS (e : GoError)
deriving DecidableEq

def Sig.isDone : Sig → Bool
  | .done => true
  | .errS _ => false

/-- The signal a constituent with the given settlement delivers to the
collection loop of `All`. A fulfilled constituent's `Then` continuation
writes its value and sends done; a constituent rejected with a non-nil
reason has its `Catch` continuation send the error; a constituent rejected
with a nil reason takes the nil-error path of `Then`'s executor — its
continuation runs with the constituent's zero value, writes it, and sends
done, while its `Catch` executor does nothing. -/
def allSignalOf {T : Type} : Outcome T → Sig
  | .fulfilled _ => Sig.done
  | .rejectedWith e => Sig.errS e
  | .rejectedNil => Sig.done

/-- The first error signal in delivery order; the error channel is FIFO,
so this is the reason of the first-rejecting constituent. -/
def firstErrS : List Sig → Option GoError
  | [] => none
  | .done :: rest => firstErrS rest
  | .errS e :: _ => some e

/-- The shared `values` slice of `All`: slot `idx` is written by the
`Then` continuation of constituent `idx` when its `Await` reports a nil
error — with the fulfilled value, or with the constituent's zero value for
a nil-reason rejection — and stays at the zero value when the constituent
rejected with a non-nil reason (its continuation never runs). -/
def allValues {T : Type} (zero : T) (outs : List (Outcome T)) : List T :=
  outs.map fun o =>
    match o with
    | .fulfilled v => v
    | .rejectedWith _ => zero
    | .rejectedNil => zero

/-- The `for`/`select` collection loop of `All`, fed the signals it
dequeues in order. `some none` is `resolve(values)` after all iterations
saw done signals; `some (some e)` is `reject(e)` on receiving an error;
`none` means the loop is still blocked waiting for a signal. -/
def allLoop : Nat → List Sig → Option (Option GoError)
  | 0, _ => some none
  | Nat.succ _, [] => none
  | Nat.succ k, s :: rest =>
    match s with
    | .done => allLoop k rest
    | .errS e => some (some e)

/-- Capacity of `doneChan` in `All`: `make(chan bool, len(promises))`. -/
def allDoneChanCap (n : Nat) : Nat := n

/-- Capacity of `errChan` in `All`: `make(chan error, 1)`. -/
def allErrChanCap : Nat := 1

/-- Capacity of `valueChan` in `Race`: `make(chan T, 1)`. -/
def raceValueChanCap : Nat := 1

/-- Capacity of `errChan` in `Race`: `make(chan error, 1)`. -/
def raceErrChanCap : Nat := 1

/-- A buffered Go channel with no active receiver: a bounded FIFO. -/
structure Chan (A : Type) where
  cap : Nat
  buf : List A
deriving DecidableEq

/-- A send on a buffered channel with no receiver: enqueues when the
buffer has room, otherwise the sender blocks (`none`). -/
def Chan.send {A : Type} (c : Chan A) (a : A) : Option (Chan A) :=
  if c.buf.length < c.cap then some { c with buf := c.buf ++ [a] } else none

/-- A sequence of sends; `none` as soon as one of them blocks. -/
def Chan.sendAll {A : Type} : Chan A → List A → Option (Chan A)
  | c, [] => some c
  | c, a :: as =>
    match c.send a with
    | none => none
    | some c' => Chan.sendAll c' as

/-- `All`: nil for an empty input list; otherwise the promise produced by
its executor, given the constituents' outcomes and the signals the
collection loop dequeues. A still-blocked loop leaves the promise
pending. -/
def AllRun {T : Type} (zero : T) (outs : List (Outcome T)) (recvs : List Sig) :
    Option (Promise (List T)) :=
  if outs.length = 0 then none
  else some (
    match allLoop outs.length recvs with
    | none => newPending []
    | some none => runTask (newPending []) [SettleCall.res (allValues zero outs)] Termination.normal
    | some (some e) => runTask (newPending []) [SettleCall.rej (some e)] Termination.normal)

/-- `Race`: nil for an empty input list; otherwise its single `select`
settles with the first-delivered constituent signal. -/
def RaceRun {T : Type} (zero : T) (outs : List (Outcome T)) (first : Outcome T) :
    Option (Promise T) :=
  if outs.length = 0 then none
  else some (
    match first with
    | .fulfilled v => runTask (newPending zero) [SettleCall.res v] Termination.normal
    | .rejectedWith e => runTask (newPending zero) [SettleCall.rej (some e)] Termination.normal
    | .rejectedNil => runTask (newPending zero) [SettleCall.res zero] Termination.normal)

/-! ### Basic lemmas about the settlement step -/

/-- A settled promise is a fixed point of every settlement call. -/
theorem applyCall_of_settled {T : Type} (p : Promise T) (c : SettleCall T)
    (h : p.status ≠ promiseStatus.PENDING) : applyCall p c = p := by
  cases c with
  | res v =>
      show Promise.resolve p v = p
      unfold Promise.resolve
      rw [if_pos h]
  | rej e =>
      show Promise.reject p e = p
      unfold Promise.reject
      rw [if_pos h]

/-- A settled promise is a fixed point of every sequence of settlement
calls. -/
theorem applyCalls_of_settled {T : Type} (p : Promise T) (cs : List (SettleCall T))
    (h : p.status ≠ promiseStatus.PENDING) : applyCalls p cs = p := by
  induction cs with
  | nil => rfl
  | cons c cs ih =>
      show List.foldl applyCall p (c :: cs) = p
      rw [List.foldl_cons, applyCall_of_settled p c h]
      exact ih

theorem resolve_pending {T : Type} (value v : T) (reason : Option GoError) :
    Promise.resolve ⟨value, reason, promiseStatus.PENDING⟩ v =
      ⟨v, reason, promiseStatus.FULFILLED⟩ := rfl

theorem reject_pending {T : Type} (value : T) (reason e : Option GoError) :
    Promise.reject ⟨value, reason, promiseStatus.PENDING⟩ e =
      ⟨value, e, promiseStatus.REJECTED⟩ := rfl

/-! ### C1: settlement happens at most once -/

/-- C1: For every promise, settlement happens at most once. In any
interleaving of settlement calls on a pending promise, the first call wins:
the whole sequence has the same effect as its first call alone, the
promise is settled afterwards (out of `PENDING`), a winning `resolve`
stores the value and leaves the reason untouched, a winning `reject`
stores the reason and leaves the value untouched, and any settlement call
on an already settled promise is a no-op, so status, value and reason
never change after settlement. -/
theorem C1_settlement_at_most_once {T : Type} (p : Promise T) (c : SettleCall T)
    (cs : List (SettleCall T)) (hp : p.status = promiseStatus.PENDING) :
    applyCalls p (c :: cs) = applyCall p c ∧
    ((applyCall p c).status = promiseStatus.FULFILLED ∨
      (applyCall p c).status = promiseStatus.REJECTED) ∧
    (∀ v, c = SettleCall.res v →
      applyCall p c = ⟨v, p.reason, promiseStatus.FULFILLED⟩) ∧
    (∀ e, c = SettleCall.rej e →
      applyCall p c = ⟨p.value, e, promiseStatus.REJECTED⟩) ∧
    (∀ (q : Promise T) (c' : SettleCall T), q.status ≠ promiseStatus.PENDING →
      applyCall q c' = q) := by
  obtain ⟨value, reason, status⟩ := p
  cases hp
  have hfirst : ∀ c₀ : SettleCall T,
      applyCall (⟨value, reason, promiseStatus.PENDING⟩ : Promise T) c₀ =
        match c₀ with
        | SettleCall.res v => ⟨v, reason, promiseStatus.FULFILLED⟩
        | SettleCall.rej e => ⟨value, e, promiseStatus.REJECTED⟩ := by
    intro c₀
    cases c₀ with
    | res v => exact resolve_pending value v reason
    | rej e => exact reject_pending value reason e
  refine ⟨?_, ?_, ?_, ?_, ?_⟩
  · show List.foldl applyCall _ (c :: cs) = _
    rw [List.foldl_cons]
    have hset : (applyCall (⟨value, reason, promiseStatus.PENDING⟩ : Promise T) c).status ≠
        promiseStatus.PENDING := by
      rw [hfirst c]
      cases c <;> simp
    exact applyCalls_of_settled _ cs hset
  · rw [hfirst c]
    cases c <;> simp
  · intro v hv
    rw [hv, hfirst]
  · intro e he
    rw [he, hfirst]
  · intro q c' hq
    exact applyCall_of_settled q c' hq

/-- Witness for C1 at a concrete interleaving: a resolve followed by a
losing reject and a losing resolve has the same effect as the first
resolve alone. -/
theorem C1_settlement_witness :
    applyCalls (newPending (0 : Nat))
        [SettleCall.res 7, SettleCall.rej (some (GoError.user 0 "late")), SettleCall.res 9] =
      applyCall (newPending (0 : Nat)) (SettleCall.res 7) :=
  (C1_settlement_at_most_once (newPending (0 : Nat)) (SettleCall.res 7)
    [SettleCall.rej (some (GoError.user 0 "late")), SettleCall.res 9] rfl).1

/-! ### C2: Catch on a fulfilled source (code bug) -/

/-- C2 (code bug evaluation): when the source promise is fulfilled, the
executor of `Catch` observes a nil error, skips the continuation, makes no
settlement call, and returns; the deferred recover handler then rejects the
`Catch` promise with the synthesized error fmt.Errorf of nil, message
"\x3cnil\x3e". The success value 42 is not passed through, contradicting the
stated pass-through behaviour. -/
theorem C2_catch_drops_fulfillment :
    (NewRun (0 : Nat) [SettleCall.res 42] Termination.normal).status =
      promiseStatus.FULFILLED ∧
    (NewRun (0 : Nat) [SettleCall.res 42] Termination.normal).value = 42 ∧
    catchExecStep (NewRun (0 : Nat) [SettleCall.res 42] Termination.normal)
        (fun _ => CbResult.plain (0 : Nat)) = ([], false, none) ∧
    runTask (newPending (0 : Nat)) [] Termination.normal =
      ⟨0, some (GoError.errorf "<nil>"), promiseStatus.REJECTED⟩ :=
  ⟨rfl, rfl, rfl, rfl⟩

/-! ### C10: the deferred handler settles every New promise -/

/-- C10: an executor that returns normally without ever calling resolve or
reject leaves the promise to the deferred recover handler, which rejects it
with the synthesized error of message "\x3cnil\x3e"; and for every executor
behaviour whatsoever, the promise is settled (fulfilled or rejected) by the
time the executor goroutine exits. -/
theorem C10_task_exit_settles {T : Type} (zero : T) :
    (NewRun zero [] Termination.normal).status = promiseStatus.REJECTED ∧
    (NewRun zero [] Termination.normal).reason = some (GoError.errorf "<nil>") ∧
    (GoError.errorf "<nil>").message = "<nil>" ∧
    ∀ (calls : List (SettleCall T)) (t : Termination),
      (NewRun zero calls t).status = promiseStatus.FULFILLED ∨
      (NewRun zero calls t).status = promiseStatus.REJECTED := by
  refine ⟨rfl, rfl, rfl, ?_⟩
  intro calls t
  show (deferredRecover (applyCalls (newPending zero) calls) (recoverOf t)).status = _ ∨
    (deferredRecover (applyCalls (newPending zero) calls) (recoverOf t)).status = _
  set q := applyCalls (newPending zero) calls with hq
  have hreject : ∀ (e : Option GoError),
      (q.reject e).status = promiseStatus.FULFILLED ∨
      (q.reject e).status = promiseStatus.REJECTED := by
    intro e
    unfold Promise.reject
    by_cases h : q.status ≠ promiseStatus.PENDING
    · rw [if_pos h]
      cases hs : q.status with
      | PENDING => exact absurd hs h
      | FULFILLED => exact Or.inl rfl
      | REJECTED => exact Or.inr rfl
    · rw [if_neg h]
      exact Or.inr rfl
  cases hr : recoverOf t with
  | rnil => exact hreject _
  | rerr e => exact hreject _
  | rstr s => exact hreject _

/-! ### C5: panic-to-rejection conversion -/

/-- C5: a panic in the executor is intercepted at the task boundary and
becomes a rejection of the owning promise: an error payload becomes the
rejection reason unchanged (identity preserved), a plain string payload
becomes a synthesized error whose message equals that string, and a nil
payload becomes the synthesized non-nil error of message "\x3cnil\x3e".
In every case the reason is non-nil. -/
theorem C5_panic_conversion {T : Type} (zero : T) (r : recoverResult) :
    (NewRun zero [] (Termination.panics r)).status = promiseStatus.REJECTED ∧
    (NewRun zero [] (Termination.panics r)).reason.isSome = true ∧
    (∀ e, r = recoverResult.rerr e →
      (NewRun zero [] (Termination.panics r)).reason = some e) ∧
    (∀ s, r = recoverResult.rstr s →
      (NewRun zero [] (Termination.panics r)).reason = some (GoError.errorf s) ∧
        (GoError.errorf s).message = s) ∧
    (r = recoverResult.rnil →
      (NewRun zero [] (Termination.panics r)).reason = some (GoError.errorf "<nil>")) := by
  refine ⟨?_, ?_, ?_, ?_, ?_⟩
  · cases r <;> rfl
  · cases r <;> rfl
  · intro e h
    cases h
    rfl
  · intro s h
    cases h
    exact ⟨rfl, rfl⟩
  · intro h
    cases h
    rfl

/-- Witness for C5: a panic with string payload "boom" yields a rejection
whose synthesized reason has message "boom". -/
theorem C5_panic_witness :
    (NewRun (0 : Nat) [] (Termination.panics (recoverResult.rstr "boom"))).reason =
      some (GoError.errorf "boom") :=
  ((C5_panic_conversion (0 : Nat) (recoverResult.rstr "boom")).2.2.2.1 "boom" rfl).1

/-! ### C6: Then on a rejected source -/

/-- C6 counterexample: a promise rejected with a nil reason (`reject(nil)`
inside the executor) is a rejected promise on which `Then` does invoke the
continuation — `Then` dispatches on the error component of `Await`, not on
the status — and the resulting promise fulfills instead of propagating the
rejection. -/
theorem C6_nil_reason_counterexample :
    (NewRun (0 : Nat) [SettleCall.rej none] Termination.normal).status =
      promiseStatus.REJECTED ∧
    thenExecStep (NewRun (0 : Nat) [SettleCall.rej none] Termination.normal)
        (fun v => CbResult.plain (v + 1)) = ([SettleCall.res 1], true, none) ∧
    runTask (newPending (0 : Nat)) [SettleCall.res 1] Termination.normal =
      ⟨1, none, promiseStatus.FULFILLED⟩ :=
  ⟨rfl, rfl, rfl⟩

/-- C6 (amended): for every source promise rejected with a non-nil reason,
the executor of `Then` rejects the new promise with that same error value
(identity preserved, no wrapping) without invoking the continuation, and
the new promise settles rejected with that exact reason. -/
theorem C6_then_rejected_propagates {T R : Type} (zero : R) (src : Promise T) (e : GoError)
    (cb : T → CbResult R) (_hst : src.status = promiseStatus.REJECTED)
    (hr : src.reason = some e) :
    thenExecStep src cb = ([SettleCall.rej (some e)], false, none) ∧
    runTask (newPending zero) [SettleCall.rej (some e)] Termination.normal =
      ⟨zero, some e, promiseStatus.REJECTED⟩ := by
  constructor
  · unfold thenExecStep Promise.Await
    rw [hr]
  · rfl

/-- Witness for C6: a source rejected with a distinguished user error
propagates exactly that error through `Then`. -/
theorem C6_then_rejected_witness :
    thenExecStep (NewRun (0 : Nat) [SettleCall.rej (some (GoError.user 5 "boom"))]
        Termination.normal) (fun v => CbResult.plain (v + 1)) =
      ([SettleCall.rej (some (GoError.user 5 "boom"))], false, none) :=
  (C6_then_rejected_propagates (0 : Nat)
    (NewRun (0 : Nat) [SettleCall.rej (some (GoError.user 5 "boom"))] Termination.normal)
    (GoError.user 5 "boom") (fun v => CbResult.plain (v + 1)) rfl rfl).1

/-! ### C7: nil executor and nil source handling -/

/-- C7 (code bug evaluation): `New` with a nil executor and `Then` with a
nil source panic in the caller's goroutine at call time, as the claim says;
but `Catch` has no nil-source guard: it returns a promise whose spawned
executor panics dereferencing the nil source inside `Await`, and the
deferred recover handler converts that runtime error into a rejection of
the returned promise — the misuse is converted into a rejection after
all. -/
theorem C7_nil_argument_handling :
    NewChecked (0 : Nat) none = CallResult.callPanic "executor cannot be nil" ∧
    ThenChecked (0 : Nat) (none : Option (Promise Nat)) (fun v => CbResult.plain v) =
      CallResult.callPanic "must provide valid promise" ∧
    CatchChecked (0 : Nat) (none : Option (Promise Nat)) (fun _ => CbResult.plain 0) =
      CallResult.returned ⟨0, some GoError.runtimeNilDeref, promiseStatus.REJECTED⟩ :=
  ⟨rfl, rfl, rfl⟩

/-! ### C4: flattening of promise-returning continuations -/

/-- C4 (code bug evaluation): with a fulfilled source and a continuation
returning the already fulfilled promise `Resolve 2`, the `Then` executor
takes the flattening branch, makes no settlement call of its own, and
returns, leaving the new promise pending while the adoption callbacks run
asynchronously. The deferred recover handler of `New` therefore races the
adoption: if it runs first (the usual schedule, since adoption needs a
fresh goroutine to wake), the new promise is rejected with the synthesized
"\x3cnil\x3e" error and the later adoption resolve is a no-op; only if the
adoption runs first does the promise adopt the inner value 2. The result
promise does not reliably adopt the inner settlement. -/
theorem C4_flattening_race_rejects :
    thenExecStep (Resolve (1 : Nat)) (fun _ => CbResult.prom (Resolve (2 : Nat))) =
      ([], true, some (Resolve (2 : Nat))) ∧
    (Resolve (2 : Nat)).status = promiseStatus.FULFILLED ∧
    (Resolve (2 : Nat)).value = 2 ∧
    adoptionCalls (Resolve (2 : Nat)) = [SettleCall.res 2] ∧
    applyCalls (runTask (newPending (0 : Nat)) [] Termination.normal)
        (adoptionCalls (Resolve (2 : Nat))) =
      ⟨0, some (GoError.errorf "<nil>"), promiseStatus.REJECTED⟩ ∧
    deferredRecover (applyCalls (newPending (0 : Nat)) (adoptionCalls (Resolve (2 : Nat))))
        (recoverOf Termination.normal) =
      ⟨2, none, promiseStatus.FULFILLED⟩ :=
  ⟨rfl, rfl, rfl, rfl, rfl, rfl⟩

/-! ### Lemmas about the collection loop of All -/

/-- If the loop only ever dequeues done signals, it either completes all
its iterations and resolves, or is still blocked. -/
theorem allLoop_all_done (recvs : List Sig) (h : ∀ s ∈ recvs, s = Sig.done) :
    ∀ n : Nat, allLoop n recvs = some none ∨ allLoop n recvs = none := by
  induction recvs with
  | nil =>
      intro n
      cases n with
      | zero => exact Or.inl rfl
      | succ k => exact Or.inr rfl
  | cons s rest ih =>
      intro n
      cases n with
      | zero => exact Or.inl rfl
      | succ k =>
          have hs : s = Sig.done := h s (List.mem_cons_self s rest)
          subst hs
          have hrest : ∀ s ∈ rest, s = Sig.done := fun s hm => h s (List.mem_cons_of_mem _ hm)
          exact ih hrest k

/-- If the first error signal in the dequeue order is `e₀` and fewer done
signals are available than loop iterations, the loop either rejects with
`e₀` or is still blocked. -/
theorem allLoop_first_err (recvs : List Sig) :
    ∀ (n : Nat) (e₀ : GoError), firstErrS recvs = some e₀ →
      recvs.countP Sig.isDone < n →
      allLoop n recvs = some (some e₀) ∨ allLoop n recvs = none := by
  induction recvs with
  | nil =>
      intro n e₀ hfirst _
      exact absurd hfirst (by simp [firstErrS])
  | cons s rest ih =>
      intro n e₀ hfirst hcount
      cases s with
      | done =>
          have hc : List.countP Sig.isDone (Sig.done :: rest) =
              List.countP Sig.isDone rest + 1 := by
            simp [List.countP_cons, Sig.isDone]
          cases n with
          | zero => exact absurd hcount (by omega)
          | succ k =>
              have hfirst' : firstErrS rest = some e₀ := hfirst
              have hcount' : List.countP Sig.isDone rest < k := by omega
              exact ih k e₀ hfirst' hcount'
      | errS e =>
          have he : some e = some e₀ := hfirst
          cases n with
          | zero => exact absurd hcount (by omega)
          | succ k =>
              rw [Option.some_inj] at he
              subst he
              exact Or.inl rfl

theorem runTask_res {T : Type} (zero v : T) :
    runTask (newPending zero) [SettleCall.res v] Termination.normal =
      ⟨v, none, promiseStatus.FULFILLED⟩ := rfl

theorem runTask_rej {T : Type} (zero : T) (e : GoError) :
    runTask (newPending zero) [SettleCall.rej (some e)] Termination.normal =
      ⟨zero, some e, promiseStatus.REJECTED⟩ := rfl

/-! ### C3: All fulfills index-aligned or rejects with the first reason -/

/-- C3 counterexample: a constituent rejected with a nil reason (built by
`Reject` with the nil error: status `REJECTED`) does not behave as a
rejection inside `All`. Its `Then` executor sees a nil error from `Await`,
so the continuation runs with the constituent's zero value and sends a
done signal, while its `Catch` executor does nothing. With constituents
[fulfilled 1, rejected-with-nil] the loop therefore receives two done
signals and `All` fulfills with [1, 0] — the claim as stated demands a
rejection with the first-rejecting constituent's reason. -/
theorem C3_nil_reason_counterexample :
    (Reject (0 : Nat) none).status = promiseStatus.REJECTED ∧
    thenExecStep (Reject (0 : Nat) none) (fun v => CbResult.plain v) =
      ([SettleCall.res 0], true, none) ∧
    catchExecStep (Reject (0 : Nat) none) (fun e => CbResult.plain e) = ([], false, none) ∧
    allSignalOf (Outcome.rejectedNil : Outcome Nat) = Sig.done ∧
    AllRun (0 : Nat) [Outcome.fulfilled 1, Outcome.rejectedNil] [Sig.done, Sig.done] =
      some ⟨[1, 0], none, promiseStatus.FULFILLED⟩ :=
  ⟨rfl, rfl, rfl, rfl, rfl⟩

/-- C3 (amended): for a non-empty input list of constituents each of which
either fulfills or rejects with a non-nil reason, and whose collection
loop is not blocked: in that domain a done signal characterizes a
fulfilled constituent; `All` fulfills with the sequence of constituent
values, index-aligned with the input, when the loop only sees done signals
(every constituent fulfilled, in any completion order); and it rejects
with the reason of the first-rejecting constituent — the first error
signal in delivery order, which by channel FIFO order is the first
rejection, even if a later constituent rejects with a different reason —
whenever fewer done signals exist than constituents. (A constituent
rejected with a nil reason instead signals done with its zero value, see
the counterexample above.) -/
theorem C3_all_fulfills_or_first_rejection {T : Type} (zero : T) (outs : List (Outcome T))
    (recvs : List Sig) (hne : outs ≠ [])
    (hno : ∀ o ∈ outs, o ≠ Outcome.rejectedNil)
    (hlive : allLoop outs.length recvs ≠ none) :
    (∀ o ∈ outs, allSignalOf o = Sig.done ↔ ∃ v, o = Outcome.fulfilled v) ∧
    ((∀ s ∈ recvs, s = Sig.done) →
      AllRun zero outs recvs =
        some ⟨allValues zero outs, none, promiseStatus.FULFILLED⟩ ∧
      (allValues zero outs).length = outs.length ∧
      ∀ (i : Nat) (v : T), outs[i]? = some (Outcome.fulfilled v) →
        (allValues zero outs)[i]? = some v) ∧
    (∀ e₀ : GoError, firstErrS recvs = some e₀ →
      recvs.countP Sig.isDone < outs.length →
      AllRun zero outs recvs = some ⟨[], some e₀, promiseStatus.REJECTED⟩) := by
  have hlen : outs.length ≠ 0 := fun h => hne (List.length_eq_zero.mp h)
  refine ⟨?_, ?_, ?_⟩
  · intro o ho
    cases o with
    | fulfilled v => simp [allSignalOf]
    | rejectedWith e => simp [allSignalOf]
    | rejectedNil => exact absurd rfl (hno _ ho)
  · intro hdone
    have heq : allLoop outs.length recvs = some none := by
      rcases allLoop_all_done recvs hdone outs.length with h | h
      · exact h
      · exact absurd h hlive
    refine ⟨?_, ?_, ?_⟩
    · unfold AllRun
      rw [if_neg hlen, heq]
      rfl
    · simp [allValues]
    · intro i v hiv
      unfold allValues
      rw [List.getElem?_map, hiv]
      rfl
  · intro e₀ hfirst hcount
    have heq : allLoop outs.length recvs = some (some e₀) := by
      rcases allLoop_first_err recvs outs.length e₀ hfirst hcount with h | h
      · exact h
      · exact absurd h hlive
    unfold AllRun
    rw [if_neg hlen, heq]
    rfl

/-- Witness for C3: three constituents fulfilling with 1, 2, 3 and a loop
receiving three done signals yield the fulfilled promise carrying
[1, 2, 3]. -/
theorem C3_all_witness :
    AllRun (0 : Nat) [Outcome.fulfilled 1, Outcome.fulfilled 2, Outcome.fulfilled 3]
        [Sig.done, Sig.done, Sig.done] =
      some ⟨[1, 2, 3], none, promiseStatus.FULFILLED⟩ :=
  ((C3_all_fulfills_or_first_rejection (0 : Nat)
      [Outcome.fulfilled 1, Outcome.fulfilled 2, Outcome.fulfilled 3]
      [Sig.done, Sig.done, Sig.done] (by decide) (by decide) (by decide)).2.1 (by decide)).1

/-! ### C8: channel capacities in All and Race -/

/-- A sequence of sends succeeds when the buffer has room for all of
them. -/
theorem chan_sendAll_room {A : Type} (as : List A) :
    ∀ c : Chan A, c.buf.length + as.length ≤ c.cap →
      ∃ c', Chan.sendAll c as = some c' := by
  induction as with
  | nil =>
      intro c _
      exact ⟨c, rfl⟩
  | cons a as ih =>
      intro c hroom
      have hroom' : c.buf.length + (as.length + 1) ≤ c.cap := by
        simpa [List.length_cons] using hroom
      have hlt : c.buf.length < c.cap := by omega
      have hsend : c.send a = some { c with buf := c.buf ++ [a] } := by
        unfold Chan.send
        rw [if_pos hlt]
      obtain ⟨c', hc'⟩ := ih { c with buf := c.buf ++ [a] }
        (by simp [List.length_append]; omega)
      refine ⟨c', ?_⟩
      show Chan.sendAll c (a :: as) = some c'
      unfold Chan.sendAll
      rw [hsend]
      exact hc'

theorem allLoop_replicate_done : ∀ n : Nat, allLoop n (List.replicate n Sig.done) = some none := by
  intro n
  induction n with
  | zero => rfl
  | succ k ih =>
      show allLoop (k + 1) (Sig.done :: List.replicate k Sig.done) = some none
      exact ih

theorem allLoop_replicate_err (e : GoError) :
    ∀ (k n : Nat), k < n →
      allLoop n (List.replicate k Sig.done ++ [Sig.errS e]) = some (some e) := by
  intro k
  induction k with
  | zero =>
      intro n hn
      cases n with
      | zero => exact absurd hn (by omega)
      | succ m => rfl
  | succ j ih =>
      intro n hn
      cases n with
      | zero => exact absurd hn (by omega)
      | succ m =>
          show allLoop (m + 1) (Sig.done :: (List.replicate j Sig.done ++ [Sig.errS e])) =
            some (some e)
          exact ih m (by omega)

/-- C8 counterexample: the claim requires every per-kind channel to hold
all N potential signals of that kind, but the error channel of `All` has
capacity 1; with N = 2 rejecting constituents, the second rejection signal
finds the buffer full and its sender blocks. -/
theorem C8_capacity_counterexample :
    allErrChanCap < 2 ∧
    Chan.sendAll { cap := allErrChanCap, buf := ([] : List GoError) }
        [GoError.user 1 "e1", GoError.user 2 "e2"] = none :=
  ⟨by decide, rfl⟩

/-- C8 (amended): the done channel of `All` has capacity N and absorbs all
N potential done signals without blocking any sender; the error channel of
`All` and both channels of `Race` have capacity 1, which guarantees an
unblocked write only for the first signal of that kind; the collection
loop itself still cannot deadlock — it resolves after N done signals and
rejects as soon as an error signal is delivered — but a second same-kind
signal's sender can block forever on the full capacity-1 buffer. -/
theorem C8_capacity_amended (n k : Nat) (e : GoError) (hk : k < n) :
    allDoneChanCap n = n ∧
    allErrChanCap = 1 ∧ raceValueChanCap = 1 ∧ raceErrChanCap = 1 ∧
    (∃ c', Chan.sendAll { cap := allDoneChanCap n, buf := ([] : List Bool) }
      (List.replicate n true) = some c') ∧
    (∃ c', Chan.send { cap := allErrChanCap, buf := ([] : List GoError) } e = some c') ∧
    allLoop n (List.replicate n Sig.done) = some none ∧
    allLoop n (List.replicate k Sig.done ++ [Sig.errS e]) = some (some e) := by
  refine ⟨rfl, rfl, rfl, rfl, ?_, ?_, ?_, ?_⟩
  · exact chan_sendAll_room (List.replicate n true) _ (by simp [allDoneChanCap])
  · exact ⟨_, rfl⟩
  · exact allLoop_replicate_done n
  · exact allLoop_replicate_err e k n hk

/-- Witness for C8 (amended) at N = 3 constituents, one error after one
done signal. -/
theorem C8_capacity_witness :
    allLoop 3 (List.replicate 1 Sig.done ++ [Sig.errS (GoError.user 0 "x")]) =
      some (some (GoError.user 0 "x")) :=
  (C8_capacity_amended 3 1 (GoError.user 0 "x") (by decide)).2.2.2.2.2.2.2

/-! ### C9: empty input to All and Race -/

/-- C9: `All` and `Race` applied to an empty input list return nil rather
than a promise. -/
theorem C9_empty_returns_nil {T : Type} (zero : T) (recvs : List Sig) (first : Outcome T) :
    AllRun zero ([] : List (Outcome T)) recvs = none ∧
    RaceRun zero ([] : List (Outcome T)) first = none := by
  constructor
  · rfl
  · rfl
